import Mathlib

/-!
# Verification of `src/webscraping-seguro.py`

A shallow embedding of the politeness-and-retrieval control loop of the
crawler: the urllib3 retry configuration built by `make_session`, the
`polite_get` request wrapper (robots check, 429/Retry-After handling,
`raise_for_status`), the `random_delay` pacing gate, `check_robots`, and
the `scrape_site` crawl loop with its visited set.

External effects (network, sleeping, logging) are modelled as events in a
trace; external collaborators (the HTML parser, `urljoin`, the random
choices) are parameters of the model, so theorems quantify over them.
-/

namespace WebscrapingSeguro

/-! ## Configuration constants (lines 24-30 of the source) -/

def MIN_DELAY : ℚ := 1
def MAX_DELAY : ℚ := 3
def TIMEOUT : Nat := 10

def USER_AGENTS : List String :=
  ["Mozilla/5.0 (Windows NT 10.0; Win64; x64) AppleWebKit/537.36 (KHTML, like Gecko) Chrome/120 Safari/537.36",
   "Mozilla/5.0 (Macintosh; Intel Mac OS X 13_6) AppleWebKit/605.1.15 (KHTML, like Gecko) Version/16.6 Safari/605.1.15",
   "Mozilla/5.0 (X11; Linux x86_64) AppleWebKit/537.36 (KHTML, like Gecko) Chrome/114 Safari/537.36"]

/-! ## The retry layer configured by `make_session` (lines 62-77)

`make_session` mounts an `HTTPAdapter` whose `Retry` object is
`Retry(total=5, backoff_factor=1, status_forcelist=(429,500,502,503,504),
allowed_methods=["GET","POST"])`.  The configuration literals are in the
source; the machinery interpreting them lives in the third-party urllib3
library. -/

/-- The outcome the server/network produces for one low-level attempt:
either a response with a status code, or a network-level failure
(connection refused, timeout, DNS). -/
inductive AttemptOut
  | resp (status : Nat)
  | netErr
deriving DecidableEq

/-- Observable events of the adapter's send loop: one network attempt, or a
backoff sleep of `d` seconds. -/
inductive AdEv
  | attempt
  | backoff (d : ℚ)
deriving DecidableEq

/-- The fields of the urllib3 `Retry` object that `make_session` sets. -/
structure RetryConf where
  total : Nat
  backoff_factor : ℚ
  status_forcelist : List Nat
deriving DecidableEq

/-- The object `Retry(total=5, backoff_factor=1, status_forcelist=(429, 500, 502, 503, 504),
allowed_methods=["GET", "POST"])` from `make_session` (lines 65-70). -/
def make_session_retries : RetryConf :=
  { total := 5, backoff_factor := 1, status_forcelist := [429, 500, 502, 503, 504] }

/-- Modelled from the spec: urllib3's `Retry.get_backoff_time` (third-party
code, not under `src/`): before the `k`-th consecutive retry the adapter
sleeps `backoff_factor * 2 ^ (k - 1)` seconds, i.e. delays 1, 2, 4, 8, 16
for `backoff_factor = 1` — "delays approximately 1s, 2s, 4s, 8s, 16s between
attempts — doubling each retry". -/
def get_backoff_time (cfg : RetryConf) (consecutiveErrors : Nat) : ℚ :=
  cfg.backoff_factor * 2 ^ (consecutiveErrors - 1)

/-- Result of one `session.get` as seen above the adapter: either a response
handed back to the caller, or a raised error after the retry budget is
exhausted (urllib3 `MaxRetryError`, surfaced by requests as
`RetryError`/`ConnectionError`). -/
inductive SendResult
  | resp (status : Nat)
  | maxRetryError
deriving DecidableEq

/-- Modelled from the spec: the urllib3 `HTTPAdapter`/`Retry` send loop
(third-party code, not under `src/`) that `make_session` configures.
`env i` is the outcome of the `i`-th low-level attempt; `budget` is the
remaining retry budget (initially `cfg.total`).  A response whose status is
in `status_forcelist`, and any network-level failure, is retried after a
backoff sleep while budget remains; once the budget is exhausted the error
is raised.  Any other status is returned to the caller as-is. -/
def sendLoop (cfg : RetryConf) (env : Nat → AttemptOut) : Nat → Nat → List AdEv × SendResult
  | 0, i =>
    match env i with
    | .resp s =>
      if s ∈ cfg.status_forcelist then ([.attempt], .maxRetryError)
      else ([.attempt], .resp s)
    | .netErr => ([.attempt], .maxRetryError)
  | b + 1, i =>
    match env i with
    | .resp s =>
      if s ∈ cfg.status_forcelist then
        let r := sendLoop cfg env b (i + 1)
        (.attempt :: .backoff (get_backoff_time cfg (i + 1)) :: r.1, r.2)
      else ([.attempt], .resp s)
    | .netErr =>
      let r := sendLoop cfg env b (i + 1)
      (.attempt :: .backoff (get_backoff_time cfg (i + 1)) :: r.1, r.2)

/-- One `session.get` through the adapter mounted by `make_session`: the
send loop started with the full retry budget. -/
def adapterSend (cfg : RetryConf) (env : Nat → AttemptOut) : List AdEv × SendResult :=
  sendLoop cfg env cfg.total 0

/-- Whether an adapter event is a network attempt. -/
def isAttempt : AdEv → Bool
  | .attempt => true
  | .backoff _ => false

/-- Number of low-level network attempts in an adapter trace. -/
def numAttempts (r : List AdEv × SendResult) : Nat :=
  r.1.countP isAttempt

/-- The backoff sleep durations of an adapter trace, in order. -/
def backoffs (r : List AdEv × SendResult) : List ℚ :=
  r.1.filterMap fun e => match e with | .backoff d => some d | _ => none

/-! ## `polite_get` (lines 80-107), `check_robots` (lines 45-59) -/

/-- A response as `polite_get` inspects it: `status_code`, the
`Retry-After` header if present (`headers.get("Retry-After")`), and the
body text. -/
structure Response where
  status : Nat
  retryAfter : Option String
  body : String
deriving DecidableEq

/-- Result of one `session.get` call as seen by `polite_get`: a response, or
a raised `requests` exception (connection error, or the adapter's
`RetryError` after exhausting its budget). -/
inductive GetResult
  | ok (r : Response)
  | exn
deriving DecidableEq

/-- Observable events of the crawler, in program order: the robots.txt
fetch (`rp.read()`), warning/error log records, one `session.get` for a
page URL, the `time.sleep(wait)` of the 429 branch, one `random_delay()`
pacing call, and one discovered item (`logging.info("Encontrado livro")`). -/
inductive Ev
  | robotsFetch
  | logWarning
  | logError
  | pageGet (url : String)
  | sleep (seconds : Int)
  | delay
  | itemFound (title url : String)
deriving DecidableEq

/-- What `polite_get` returns or raises: the response (on 2xx/3xx), a
`PermissionError` from the robots check, a `requests.HTTPError` from
`raise_for_status`, or another propagated exception. -/
inductive PoliteResult
  | success (r : Response)
  | permissionError
  | httpError (status : Nat)
  | exnError
deriving DecidableEq

/-- The decimal value of a digit string. -/
def digitsToNat (cs : List Char) : Nat :=
  cs.foldl (fun n c => n * 10 + (c.toNat - 48)) 0

/-- Python's `int(s)` on a header string: optional surrounding whitespace,
an optional sign, then decimal digits; anything else (e.g. an HTTP-date)
raises `ValueError`, modelled as `none`. -/
def parsePyInt (s : String) : Option Int :=
  let t := (s.data.dropWhile Char.isWhitespace).reverse.dropWhile Char.isWhitespace
  let core : Bool × List Char :=
    match t.reverse with
    | '-' :: rest => (true, rest)
    | '+' :: rest => (false, rest)
    | u => (false, u)
  if core.2 ≠ [] ∧ core.2.all Char.isDigit then
    some (if core.1 then -(digitsToNat core.2 : Int) else (digitsToNat core.2 : Int))
  else none

/-- Python's `resp.raise_for_status()`: raises `requests.HTTPError` for any status
in 400-599, otherwise returns the response. -/
def raise_for_status (r : Response) : PoliteResult :=
  if 400 ≤ r.status then .httpError r.status else .success r

/-- Lines 93-107 of `polite_get`: issue `session.get`; on a 429 with a
truthy `Retry-After` header, parse it as `int` (falling back to 60 on
`ValueError`), log a warning, sleep, and issue exactly one extra
`session.get`; finally `raise_for_status` on whatever response is current.
`get i` is the outcome of the `i`-th `session.get` of this call. -/
def polite_get_fetch (get : Nat → GetResult) (url : String) : List Ev × PoliteResult :=
  match get 0 with
  | .exn => ([.pageGet url], .exnError)
  | .ok resp =>
    if resp.status = 429 then
      match resp.retryAfter with
      | some ra =>
        if ra ≠ "" then
          let wait : Int := (parsePyInt ra).getD 60
          match get 1 with
          | .exn => ([.pageGet url, .logWarning, .sleep wait, .pageGet url], .exnError)
          | .ok resp2 =>
            ([.pageGet url, .logWarning, .sleep wait, .pageGet url], raise_for_status resp2)
        else ([.pageGet url], raise_for_status resp)
      | none => ([.pageGet url], raise_for_status resp)
    else ([.pageGet url], raise_for_status resp)

/-- The function `polite_get(session, url, robotsArg, user_agent)` (lines 80-107).
A robots parser is its `can_fetch` function `(user_agent, url) ↦ allowed`;
when one is supplied and denies the URL, a `PermissionError` is raised
before any request. -/
def polite_get (get : Nat → GetResult) (robotsArg : Option (String → String → Bool))
    (user_agent : Option String) (url : String) : List Ev × PoliteResult :=
  match robotsArg with
  | some rp =>
    if rp (user_agent.getD USER_AGENTS.headI) url = false then ([], .permissionError)
    else polite_get_fetch get url
  | none => polite_get_fetch get url

/-- Number of page `session.get` calls recorded in a trace. -/
def countGets (tr : List Ev) : Nat :=
  tr.countP fun e => match e with | .pageGet _ => true | _ => false

/-! ## `random_delay` (lines 110-114) -/

/-- Python's `random.uniform(a, b)`: `a + (b - a) * u` where `u` is the raw
`random.random()` sample in `[0, 1]`. -/
def uniform (a b u : ℚ) : ℚ := a + (b - a) * u

/-- The function `random_delay()` (lines 110-114): sleeps
`random.uniform(MIN_DELAY, MAX_DELAY)` seconds; the returned value is the
duration slept, as a function of the raw random sample `u`. -/
def random_delay (u : ℚ) : ℚ := uniform MIN_DELAY MAX_DELAY u

/-! ## `check_robots` and `scrape_site` (lines 45-59, 127-174)

The external collaborators of the loop — the server (`session.get`
outcomes), `robotparser` (`rp.read()` success and the resulting
`can_fetch`), BeautifulSoup field extraction (`parse_listing` and the
`li.next a` link), `urljoin`, and the `random.choice` of user agent — are
collected in a `World` the model is parameterised by. -/

structure World where
  /-- Outcome of `rp.read()` at crawl start: `none` when reading robots.txt
  raises, otherwise the parsed policy's `can_fetch : (user_agent, url) → Bool`. -/
  robotsRead : Option (String → String → Bool)
  /-- Result of `session.get url`, by URL and by index of the call within one
  `polite_get` invocation (0 = first request, 1 = the 429 extra request). -/
  get : String → Nat → GetResult
  /-- Result of `parse_listing(html)`: the `(title, href)` pairs extracted from the page. -/
  parse_listing : String → List (String × String)
  /-- Result of `soup.select_one("li.next a")`, its `href`, if a next-page link exists. -/
  next_link : String → Option String
  /-- Resolution `urljoin(base, href)`. -/
  urljoin : String → String → String
  /-- the `random.choice(USER_AGENTS)` passed to `polite_get`. -/
  ua : String

/-- The function `check_robots(url, user_agent="*")` (lines 45-59): fetch and parse
robots.txt; on any exception log a warning and return `None`; otherwise
return `(rp.can_fetch(user_agent, url), rp)`. -/
def check_robots (w : World) (url : String) :
    List Ev × Option (Bool × (String → String → Bool)) :=
  match w.robotsRead with
  | none => ([.robotsFetch, .logWarning], none)
  | some rp => ([.robotsFetch], some (rp "*" url, rp))

/-- How a run of `scrape_site` ends. -/
inductive Terminal
  | blocked
  | completed
  | permError
  | httpAbort (status : Nat)
  | unexpectedAbort
  | fuelOut
deriving DecidableEq

/-- The `for title, href in items` body (lines 155-163): resolve the href
against the page URL, skip if already in `seen`, otherwise add to `seen`,
log the item, and call `random_delay()`. -/
def processItems (w : World) (page : String) :
    List (String × String) → List String → List Ev × List String
  | [], seen => ([], seen)
  | (title, href) :: rest, seen =>
    let item_url := w.urljoin page href
    if item_url ∈ seen then processItems w page rest seen
    else
      let r := processItems w page rest (item_url :: seen)
      (.itemFound title item_url :: .delay :: r.1, r.2)

/-- The `while page:` loop of `scrape_site` (lines 138-174): `polite_get`
the page (a `PermissionError`, `HTTPError` or unexpected exception breaks
the loop after logging), process the items against the visited set, then
follow the `li.next a` link — calling `random_delay()` before the next
page — or finish.  `fuel` bounds the number of pages visited. -/
def crawlLoop (w : World) (rp : Option (String → String → Bool)) :
    Nat → String → List String → List Ev × Terminal
  | 0, _, _ => ([], .fuelOut)
  | fuel + 1, page, seen =>
    match polite_get (w.get page) rp (some w.ua) page with
    | (pevs, .permissionError) => (pevs ++ [.logError], .permError)
    | (pevs, .httpError s) => (pevs ++ [.logError], .httpAbort s)
    | (pevs, .exnError) => (pevs ++ [.logError], .unexpectedAbort)
    | (pevs, .success resp) =>
      let ir := processItems w page (w.parse_listing resp.body) seen
      match w.next_link resp.body with
      | some href =>
        let r := crawlLoop w rp fuel (w.urljoin page href) ir.2
        (pevs ++ ir.1 ++ [.delay] ++ r.1, r.2)
      | none => (pevs ++ ir.1, .completed)

/-- The function `scrape_site(start_url)` (lines 127-174): run `check_robots`; on
`robots_ok is False` log an error and stop (blocked); otherwise enter the
page loop with an empty visited set. -/
def scrape_site (w : World) (fuel : Nat) (start_url : String) : List Ev × Terminal :=
  let cr := check_robots w start_url
  let robots_ok : Option Bool := cr.2.map Prod.fst
  let rp : Option (String → String → Bool) := cr.2.map Prod.snd
  if robots_ok = some false then
    (cr.1 ++ [.logError], .blocked)
  else
    let r := crawlLoop w rp fuel start_url []
    (cr.1 ++ r.1, r.2)

/-! ## Trace predicates -/

/-- The URLs of the items recorded as discovered in a trace, in order. -/
def itemUrls (tr : List Ev) : List String :=
  tr.filterMap fun e => match e with | .itemFound _ u => some u | _ => none

/-- Scan of a trace checking that every page request is preceded by a
`random_delay()` pacing call since the previous page request; the flag says
whether such a delay has already occurred. -/
def pacedFrom : Bool → List Ev → Bool
  | _, [] => true
  | _, Ev.delay :: r => pacedFrom true r
  | b, Ev.sleep _ :: r => pacedFrom b r
  | b, Ev.pageGet _ :: r => b && pacedFrom false r
  | b, Ev.robotsFetch :: r => pacedFrom b r
  | b, Ev.logWarning :: r => pacedFrom b r
  | b, Ev.logError :: r => pacedFrom b r
  | b, Ev.itemFound _ _ :: r => pacedFrom b r

/-- Every page request in the trace — including the first — is preceded by
a pacing delay since the previous page request. -/
def paced (tr : List Ev) : Bool := pacedFrom false tr

/-- Like `pacedFrom`, but a `Retry-After` sleep also counts as a wait. -/
def waitedFrom : Bool → List Ev → Bool
  | _, [] => true
  | _, Ev.delay :: r => waitedFrom true r
  | _, Ev.sleep _ :: r => waitedFrom true r
  | b, Ev.pageGet _ :: r => b && waitedFrom false r
  | b, Ev.robotsFetch :: r => waitedFrom b r
  | b, Ev.logWarning :: r => waitedFrom b r
  | b, Ev.logError :: r => waitedFrom b r
  | b, Ev.itemFound _ _ :: r => waitedFrom b r

/-- The wait flag of `waitedFrom` after scanning a trace: whether a wait
has occurred since the last page request (or since the start). -/
def flagAfter : Bool → List Ev → Bool
  | b, [] => b
  | _, Ev.delay :: r => flagAfter true r
  | _, Ev.sleep _ :: r => flagAfter true r
  | _, Ev.pageGet _ :: r => flagAfter false r
  | b, Ev.robotsFetch :: r => flagAfter b r
  | b, Ev.logWarning :: r => flagAfter b r
  | b, Ev.logError :: r => flagAfter b r
  | b, Ev.itemFound _ _ :: r => flagAfter b r

/-- Every discovered item in the trace is immediately followed by a
`random_delay()` pacing call. -/
def itemsPaced : List Ev → Bool
  | [] => true
  | Ev.itemFound _ _ :: r => (match r with | Ev.delay :: _ => true | _ => false) && itemsPaced r
  | _ :: r => itemsPaced r

/-! ## Concrete scenarios used as inputs to theorems -/

/-- Server behaviour "503 three times, then 200". -/
def env503 : Nat → AttemptOut := fun i => if i < 3 then .resp 503 else .resp 200

/-- Server behaviour "429 once, then 200". -/
def env429 : Nat → AttemptOut := fun i => if i = 0 then .resp 429 else .resp 200

/-- A `session.get` behaviour: first call 429 with `Retry-After: 2`, second
call 500. -/
def get429then500 : Nat → GetResult :=
  fun i => if i = 0 then .ok ⟨429, some "2", ""⟩ else .ok ⟨500, none, ""⟩

/-- A `session.get` behaviour: first call 429 with an HTTP-date `Retry-After`,
second call 200. -/
def get429date : Nat → GetResult :=
  fun i => if i = 0 then .ok ⟨429, some "Wed, 21 Oct 2015 07:28:00 GMT", ""⟩
           else .ok ⟨200, none, ""⟩

/-- A `session.get` behaviour: always 429 with no `Retry-After` header. -/
def get429bare : Nat → GetResult := fun _ => .ok ⟨429, none, ""⟩

/-- A world whose robots policy denies everything. -/
def wBlocked : World :=
  { robotsRead := some fun _ _ => false
    get := fun _ _ => .ok ⟨200, none, ""⟩
    parse_listing := fun _ => []
    next_link := fun _ => none
    urljoin := fun _ href => href
    ua := "UA" }

/-- A world whose robots policy allows everything and whose single page has
no items and no next link. -/
def wOpen : World :=
  { robotsRead := some fun _ _ => true
    get := fun _ _ => .ok ⟨200, none, ""⟩
    parse_listing := fun _ => []
    next_link := fun _ => none
    urljoin := fun _ href => href
    ua := "UA" }

/-- A world where reading robots.txt raises. -/
def wUnknown : World :=
  { robotsRead := none
    get := fun _ _ => .ok ⟨200, none, ""⟩
    parse_listing := fun _ => []
    next_link := fun _ => none
    urljoin := fun _ href => href
    ua := "UA" }

/-! ## Adapter lemmas -/

/-- Every run of the send loop makes at least one attempt. -/
lemma one_le_numAttempts (cfg : RetryConf) (env : Nat → AttemptOut) (b i : Nat) :
    1 ≤ (sendLoop cfg env b i).1.countP isAttempt := by
  cases b with
  | zero =>
    cases h : env i with
    | resp s =>
      by_cases hs : s ∈ cfg.status_forcelist <;>
        simp [sendLoop, h, hs, isAttempt, List.countP_cons]
    | netErr => simp [sendLoop, h, isAttempt, List.countP_cons]
  | succ b =>
    cases h : env i with
    | resp s =>
      by_cases hs : s ∈ cfg.status_forcelist <;>
        simp [sendLoop, h, hs, isAttempt, List.countP_cons]
    | netErr => simp [sendLoop, h, isAttempt, List.countP_cons]

/-- The send loop makes at most `budget + 1` attempts. -/
lemma numAttempts_le (cfg : RetryConf) (env : Nat → AttemptOut) :
    ∀ b i, (sendLoop cfg env b i).1.countP isAttempt ≤ b + 1 := by
  intro b
  induction b with
  | zero =>
    intro i
    cases h : env i with
    | resp s =>
      by_cases hs : s ∈ cfg.status_forcelist <;>
        simp [sendLoop, h, hs, isAttempt, List.countP_cons]
    | netErr => simp [sendLoop, h, isAttempt, List.countP_cons]
  | succ b ih =>
    intro i
    cases h : env i with
    | resp s =>
      by_cases hs : s ∈ cfg.status_forcelist
      · have := ih (i + 1)
        simp only [sendLoop, h, hs, if_true, List.countP_cons, isAttempt]
        simpa [isAttempt] using Nat.add_le_add_right this 1
      · simp [sendLoop, h, hs, isAttempt, List.countP_cons]
    | netErr =>
      have := ih (i + 1)
      simp only [sendLoop, h, List.countP_cons, isAttempt]
      simpa [isAttempt] using Nat.add_le_add_right this 1

/-- A first response whose status is in the forcelist is retried (at least
two attempts) whenever retry budget remains. -/
lemma retry_on_forcelist (cfg : RetryConf) (env : Nat → AttemptOut) (s : Nat)
    (h0 : env 0 = .resp s) (hs : s ∈ cfg.status_forcelist) (ht : 1 ≤ cfg.total) :
    2 ≤ numAttempts (adapterSend cfg env) := by
  obtain ⟨b, hb⟩ : ∃ b, cfg.total = b + 1 := ⟨cfg.total - 1, by omega⟩
  have hone := one_le_numAttempts cfg env b 1
  have key : numAttempts (adapterSend cfg env) =
      (sendLoop cfg env b 1).1.countP isAttempt + 1 := by
    rw [numAttempts, adapterSend, hb]
    simp [sendLoop, h0, hs, isAttempt, List.countP_cons]
  rw [key]
  omega

/-- A network-level failure on the first attempt is retried whenever retry
budget remains. -/
lemma retry_on_netErr (cfg : RetryConf) (env : Nat → AttemptOut)
    (h0 : env 0 = .netErr) (ht : 1 ≤ cfg.total) :
    2 ≤ numAttempts (adapterSend cfg env) := by
  obtain ⟨b, hb⟩ : ∃ b, cfg.total = b + 1 := ⟨cfg.total - 1, by omega⟩
  have hone := one_le_numAttempts cfg env b 1
  have key : numAttempts (adapterSend cfg env) =
      (sendLoop cfg env b 1).1.countP isAttempt + 1 := by
    rw [numAttempts, adapterSend, hb]
    simp [sendLoop, h0, isAttempt, List.countP_cons]
  rw [key]
  omega

/-- A first response whose status is not in the forcelist is returned as-is
after exactly one attempt: the adapter never retries it. -/
lemma no_retry_off_forcelist (cfg : RetryConf) (env : Nat → AttemptOut) (s : Nat)
    (h0 : env 0 = .resp s) (hs : s ∉ cfg.status_forcelist) :
    numAttempts (adapterSend cfg env) = 1 ∧ (adapterSend cfg env).2 = .resp s := by
  rw [numAttempts, adapterSend]
  cases cfg.total with
  | zero => simp [sendLoop, h0, hs, isAttempt, List.countP_cons]
  | succ b => simp [sendLoop, h0, hs, isAttempt, List.countP_cons]

/-! ## Claims about the retry layer -/

/-- C1: the fetch layer configured by `make_session` retries exactly on
statuses 429, 500, 502, 503, 504 and on network-level failures, and never
retries on 400, 401, 403 or 404: for every status `s`, a retry is attempted
if and only if `s` is in the forcelist or the attempt failed at the network
level. -/
theorem generic_retry_iff_forcelist :
    (∀ s : Nat,
        2 ≤ numAttempts (adapterSend make_session_retries fun _ => .resp s) ↔
          s = 429 ∨ s = 500 ∨ s = 502 ∨ s = 503 ∨ s = 504) ∧
    2 ≤ numAttempts (adapterSend make_session_retries fun _ => .netErr) ∧
    (∀ s : Nat, s = 400 ∨ s = 401 ∨ s = 403 ∨ s = 404 →
        numAttempts (adapterSend make_session_retries fun _ => .resp s) = 1) := by
  refine ⟨fun s => ⟨fun h2 => ?_, fun hd => ?_⟩, ?_, fun s hd => ?_⟩
  · by_contra hd
    have hs : s ∉ make_session_retries.status_forcelist := by
      simp only [make_session_retries, List.mem_cons, List.not_mem_nil, or_false]
      tauto
    have h1 := no_retry_off_forcelist make_session_retries (fun _ => .resp s) s rfl hs
    omega
  · have hs : s ∈ make_session_retries.status_forcelist := by
      simp only [make_session_retries, List.mem_cons, List.not_mem_nil, or_false]
      tauto
    exact retry_on_forcelist make_session_retries (fun _ => .resp s) s rfl hs
      (by norm_num [make_session_retries])
  · exact retry_on_netErr make_session_retries (fun _ => .netErr) rfl
      (by norm_num [make_session_retries])
  · have hs : s ∉ make_session_retries.status_forcelist := by
      rcases hd with h | h | h | h <;> subst h <;> decide
    exact (no_retry_off_forcelist make_session_retries (fun _ => .resp s) s rfl hs).1

/-- Witness for `generic_retry_iff_forcelist` at concrete statuses 503
(retried) and 404 (not retried). -/
theorem generic_retry_iff_forcelist_witness :
    2 ≤ numAttempts (adapterSend make_session_retries fun _ => .resp 503) ∧
    numAttempts (adapterSend make_session_retries fun _ => .resp 404) = 1 :=
  ⟨(generic_retry_iff_forcelist.1 503).mpr (by omega),
   generic_retry_iff_forcelist.2.2 404 (by omega)⟩

/-- C2: transient failures are retried up to the fixed budget of
`total = 5` retries with exponential backoff delays 1, 2, 4, 8, 16 seconds
(doubling each retry); in particular three 503s followed by a 200 give
exactly 4 attempts with increasing backoff delays and a successful result. -/
theorem transient_backoff_schedule :
    numAttempts (adapterSend make_session_retries env503) = 4 ∧
    (adapterSend make_session_retries env503).2 = .resp 200 ∧
    backoffs (adapterSend make_session_retries env503) = [1, 2, 4] ∧
    (backoffs (adapterSend make_session_retries env503)).Chain' (· < ·) ∧
    backoffs (adapterSend make_session_retries fun _ => .resp 503) = [1, 2, 4, 8, 16] ∧
    make_session_retries.total = 5 ∧
    (∀ env : Nat → AttemptOut,
        numAttempts (adapterSend make_session_retries env) ≤ make_session_retries.total + 1) := by
  have hb : backoffs (adapterSend make_session_retries env503) = [1, 2, 4] := by
    norm_num [backoffs, adapterSend, sendLoop, make_session_retries, get_backoff_time, env503,
      List.filterMap_cons, List.filterMap_nil]
  refine ⟨by decide, by decide, hb, ?_, ?_, rfl, fun env => ?_⟩
  · rw [hb]
    norm_num
  · norm_num [backoffs, adapterSend, sendLoop, make_session_retries, get_backoff_time,
      List.filterMap_cons, List.filterMap_nil]
  · exact numAttempts_le make_session_retries env make_session_retries.total 0

/-- C3 is refuted: the generic retry layer does consume retries on 429
responses, since 429 is in `status_forcelist`.  A first response of 429
(server then answering 200) makes the adapter itself sleep a backoff and
reissue the request: 2 attempts and a backoff of 1 second inside the
generic layer. -/
theorem generic_layer_retries_429 :
    numAttempts (adapterSend make_session_retries env429) = 2 ∧
    backoffs (adapterSend make_session_retries env429) = [1] ∧
    (adapterSend make_session_retries env429).2 = .resp 200 := by
  refine ⟨by decide, ?_, by decide⟩
  norm_num [backoffs, adapterSend, sendLoop, make_session_retries, get_backoff_time, env429,
    List.filterMap_cons, List.filterMap_nil]

/-- C3 as amended: `polite_get`'s Retry-After handling sits above the
adapter and issues its one extra request outside the generic budget (the
extra request is a fresh `session.get`), and a failing extra attempt is
surfaced to the caller; but 429 is *also* in the generic layer's
`status_forcelist`, so the generic layer does retry 429s itself. -/
theorem retry_after_above_adapter :
    429 ∈ make_session_retries.status_forcelist ∧
    ∀ (get : Nat → GetResult) (r₁ : Response) (ra url : String),
      get 0 = .ok r₁ → r₁.status = 429 → r₁.retryAfter = some ra → ra ≠ "" →
      countGets (polite_get_fetch get url).1 = 2 ∧
      (∀ r₂ : Response, get 1 = .ok r₂ → 400 ≤ r₂.status →
          (polite_get_fetch get url).2 = .httpError r₂.status) ∧
      (get 1 = .exn → (polite_get_fetch get url).2 = .exnError) := by
  refine ⟨by decide, fun get r₁ ra url h0 hst hra hne => ⟨?_, fun r₂ h1 h4 => ?_, fun h1 => ?_⟩⟩
  · cases h1 : get 1 with
    | exn => simp [polite_get_fetch, h0, hst, hra, hne, h1, countGets, List.countP_cons]
    | ok r₂ => simp [polite_get_fetch, h0, hst, hra, hne, h1, countGets, List.countP_cons]
  · simp [polite_get_fetch, h0, hst, hra, hne, h1, raise_for_status, h4]
  · simp [polite_get_fetch, h0, hst, hra, hne, h1]

/-- Witness for `retry_after_above_adapter`: a 429 with `Retry-After: 2`
whose extra attempt returns 500 issues exactly 2 requests and surfaces the
500. -/
theorem retry_after_above_adapter_witness :
    countGets (polite_get_fetch get429then500 "u").1 = 2 ∧
    (polite_get_fetch get429then500 "u").2 = .httpError 500 := by
  have h := retry_after_above_adapter.2 get429then500 ⟨429, some "2", ""⟩ "2" "u"
    rfl rfl rfl (by decide)
  exact ⟨h.1, h.2.1 ⟨500, none, ""⟩ rfl (by norm_num)⟩

/-- C4: on a 429 whose `Retry-After` header parses as an integer `n`,
`polite_get` sleeps `n` seconds and issues exactly one extra request; when
the header is present but non-numeric (e.g. an HTTP-date) it sleeps the
fixed 60 seconds instead. -/
theorem retry_after_wait_durations :
    parsePyInt "2" = some 2 ∧
    parsePyInt "Wed, 21 Oct 2015 07:28:00 GMT" = none ∧
    ∀ (get : Nat → GetResult) (r₁ : Response) (ra url : String),
      get 0 = .ok r₁ → r₁.status = 429 → r₁.retryAfter = some ra → ra ≠ "" →
      (∀ n : Int, parsePyInt ra = some n →
          (polite_get_fetch get url).1 = [.pageGet url, .logWarning, .sleep n, .pageGet url]) ∧
      (parsePyInt ra = none →
          (polite_get_fetch get url).1 = [.pageGet url, .logWarning, .sleep 60, .pageGet url]) := by
  refine ⟨by decide, by decide, fun get r₁ ra url h0 hst hra hne => ⟨fun n hn => ?_, fun hn => ?_⟩⟩
  · cases h1 : get 1 with
    | exn => simp [polite_get_fetch, h0, hst, hra, hne, h1, hn]
    | ok r₂ => simp [polite_get_fetch, h0, hst, hra, hne, h1, hn]
  · cases h1 : get 1 with
    | exn => simp [polite_get_fetch, h0, hst, hra, hne, h1, hn]
    | ok r₂ => simp [polite_get_fetch, h0, hst, hra, hne, h1, hn]

/-- Witness for `retry_after_wait_durations`: with `Retry-After: 2` the
wait is 2 seconds; with an HTTP-date it is 60 seconds; in both cases
exactly one extra request follows. -/
theorem retry_after_wait_durations_witness :
    (polite_get_fetch get429then500 "u").1 =
      [.pageGet "u", .logWarning, .sleep 2, .pageGet "u"] ∧
    (polite_get_fetch get429date "u").1 =
      [.pageGet "u", .logWarning, .sleep 60, .pageGet "u"] := by
  constructor
  · exact (retry_after_wait_durations.2.2 get429then500 ⟨429, some "2", ""⟩ "2" "u"
      rfl rfl rfl (by decide)).1 2 (by decide)
  · exact (retry_after_wait_durations.2.2 get429date
      ⟨429, some "Wed, 21 Oct 2015 07:28:00 GMT", ""⟩ "Wed, 21 Oct 2015 07:28:00 GMT" "u"
      rfl rfl rfl (by decide)).2 (by decide)

/-- C10: a 429 response without a `Retry-After` header gets no wait and no
extra attempt: `polite_get` issues the single request and surfaces the 429
as an `HTTPError` via `raise_for_status`. -/
theorem no_retry_after_header_surfaces_429 :
    ∀ (get : Nat → GetResult) (r₁ : Response) (url : String),
      get 0 = .ok r₁ → r₁.status = 429 → r₁.retryAfter = none →
      (polite_get_fetch get url).1 = [.pageGet url] ∧
      (polite_get_fetch get url).2 = .httpError 429 := by
  intro get r₁ url h0 hst hra
  constructor
  · simp [polite_get_fetch, h0, hst, hra]
  · simp [polite_get_fetch, h0, hst, hra, raise_for_status]

/-- Witness for `no_retry_after_header_surfaces_429` at a concrete bare-429
server. -/
theorem no_retry_after_header_surfaces_429_witness :
    (polite_get_fetch get429bare "u").1 = [.pageGet "u"] ∧
    (polite_get_fetch get429bare "u").2 = .httpError 429 :=
  no_retry_after_header_surfaces_429 get429bare ⟨429, none, ""⟩ "u" rfl rfl rfl

/-! ## Crawl-loop lemmas -/

/-- Scanning `waitedFrom` distributes over appending, threading the flag through
`flagAfter`. -/
lemma waitedFrom_append (l l' : List Ev) :
    ∀ b, waitedFrom b (l ++ l') = (waitedFrom b l && waitedFrom (flagAfter b l) l') := by
  induction l with
  | nil => intro b; simp [waitedFrom, flagAfter]
  | cons e t ih =>
    intro b
    cases e <;> simp [waitedFrom, flagAfter, ih, Bool.and_assoc]

/-- The trace of the fetch part of `polite_get` is either the single
request, or the request, warning, Retry-After sleep, and extra request. -/
lemma polite_get_fetch_shape (get : Nat → GetResult) (url : String) :
    (polite_get_fetch get url).1 = [.pageGet url] ∨
    ∃ n : Int, (polite_get_fetch get url).1 =
      [.pageGet url, .logWarning, .sleep n, .pageGet url] := by
  unfold polite_get_fetch
  cases h0 : get 0 with
  | exn => simp
  | ok r =>
    by_cases hs : r.status = 429
    · simp only [hs, if_true]
      cases hra : r.retryAfter with
      | none => simp
      | some ra =>
        by_cases hne : ra = ""
        · simp [hne]
        · cases h1 : get 1 <;> simp [hne]
    · simp [hs]

/-- The trace of `polite_get` is empty (robots denial) or a fetch-shaped
trace. -/
lemma polite_get_shape (get : Nat → GetResult) (rp : Option (String → String → Bool))
    (ua : Option String) (url : String) :
    (polite_get get rp ua url).1 = [] ∨
    (polite_get get rp ua url).1 = [.pageGet url] ∨
    ∃ n : Int, (polite_get get rp ua url).1 =
      [.pageGet url, .logWarning, .sleep n, .pageGet url] := by
  unfold polite_get
  cases rp with
  | none => exact Or.inr (polite_get_fetch_shape get url)
  | some p =>
    by_cases hd : p (ua.getD USER_AGENTS.headI) url = false
    · simp [hd]
    · simp only [hd, if_false]
      exact Or.inr (polite_get_fetch_shape get url)

/-- Scanning a `polite_get` trace with the wait flag set never finds an
unwaited page request. -/
lemma polite_get_waited (get : Nat → GetResult) (rp : Option (String → String → Bool))
    (ua : Option String) (url : String) :
    waitedFrom true (polite_get get rp ua url).1 = true := by
  rcases polite_get_shape get rp ua url with h | h | ⟨n, h⟩ <;> simp [h, waitedFrom]

/-- A `polite_get` trace records no discovered items. -/
lemma polite_get_itemUrls (get : Nat → GetResult) (rp : Option (String → String → Bool))
    (ua : Option String) (url : String) :
    itemUrls (polite_get get rp ua url).1 = [] := by
  rcases polite_get_shape get rp ua url with h | h | ⟨n, h⟩ <;> simp [h, itemUrls]

/-- The item-processing loop never issues a page request, so any wait flag
scans it clean. -/
lemma processItems_waited (w : World) (page : String) :
    ∀ (items : List (String × String)) (seen : List String) (b : Bool),
      waitedFrom b (processItems w page items seen).1 = true := by
  intro items
  induction items with
  | nil => intro seen b; simp [processItems, waitedFrom]
  | cons it rest ih =>
    intro seen b
    obtain ⟨title, href⟩ := it
    by_cases hmem : w.urljoin page href ∈ seen
    · simpa [processItems, hmem] using ih seen b
    · simpa [processItems, hmem, waitedFrom] using
        ih (w.urljoin page href :: seen) true

/-- Every item recorded by the item-processing loop is immediately followed
by a pacing delay, so prepending its trace to any continuation leaves the
`itemsPaced` check of the continuation unchanged. -/
lemma processItems_itemsPaced_append (w : World) (page : String) :
    ∀ (items : List (String × String)) (seen : List String) (l' : List Ev),
      itemsPaced ((processItems w page items seen).1 ++ l') = itemsPaced l' := by
  intro items
  induction items with
  | nil => intro seen l'; simp [processItems]
  | cons it rest ih =>
    intro seen l'
    obtain ⟨title, href⟩ := it
    by_cases hmem : w.urljoin page href ∈ seen
    · simpa [processItems, hmem] using ih seen l'
    · simpa [processItems, hmem, itemsPaced] using ih (w.urljoin page href :: seen) l'

/-- The item-processing loop records each resolved URL at most once, never
records a URL already in the visited set, only grows the visited set, and
puts every recorded URL into it. -/
lemma processItems_nodup (w : World) (page : String) :
    ∀ (items : List (String × String)) (seen : List String),
      (itemUrls (processItems w page items seen).1).Nodup ∧
      (∀ u ∈ itemUrls (processItems w page items seen).1, u ∉ seen) ∧
      (∀ u ∈ seen, u ∈ (processItems w page items seen).2) ∧
      (∀ u ∈ itemUrls (processItems w page items seen).1,
        u ∈ (processItems w page items seen).2) := by
  intro items
  induction items with
  | nil => intro seen; simp [processItems, itemUrls]
  | cons it rest ih =>
    intro seen
    obtain ⟨title, href⟩ := it
    by_cases hmem : w.urljoin page href ∈ seen
    · simpa [processItems, hmem] using ih seen
    · obtain ⟨ihnd, ihnotin, ihgrow, ihin⟩ := ih (w.urljoin page href :: seen)
      refine ⟨?_, ?_, ?_, ?_⟩
      · simp only [processItems, hmem, if_false, itemUrls, List.filterMap_cons,
          List.nodup_cons]
        exact ⟨fun hc => ihnotin _ hc (by simp), by simpa [itemUrls] using ihnd⟩
      · intro u hu
        simp only [processItems, hmem, if_false, itemUrls, List.filterMap_cons,
          List.mem_cons] at hu
        rcases hu with rfl | hu
        · exact hmem
        · intro hseen
          exact ihnotin u (by simpa [itemUrls] using hu) (by simp [hseen])
      · intro u hu
        simp only [processItems, hmem, if_false]
        exact ihgrow u (by simp [hu])
      · intro u hu
        simp only [processItems, hmem, if_false, itemUrls, List.filterMap_cons,
          List.mem_cons] at hu
        simp only [processItems, hmem, if_false]
        rcases hu with rfl | hu
        · exact ihgrow _ (by simp)
        · exact ihin u (by simpa [itemUrls] using hu)

/-- Extraction via `itemUrls` distributes over appending. -/
lemma itemUrls_append (l l' : List Ev) : itemUrls (l ++ l') = itemUrls l ++ itemUrls l' :=
  List.filterMap_append l l' _

/-- In every crawl-loop trace, each page request after the first is
preceded by a wait (pacing delay or Retry-After sleep) since the previous
page request. -/
lemma crawlLoop_waited (w : World) (rp : Option (String → String → Bool)) :
    ∀ (fuel : Nat) (page : String) (seen : List String),
      waitedFrom true (crawlLoop w rp fuel page seen).1 = true := by
  intro fuel
  induction fuel with
  | zero => intro page seen; simp [crawlLoop, waitedFrom]
  | succ f ih =>
    intro page seen
    have hw := polite_get_waited (w.get page) rp (some w.ua) page
    rcases hp : polite_get (w.get page) rp (some w.ua) page with ⟨pevs, pres⟩
    rw [hp] at hw
    cases pres with
    | permissionError => simp [crawlLoop, hp, waitedFrom_append, hw, waitedFrom]
    | httpError s => simp [crawlLoop, hp, waitedFrom_append, hw, waitedFrom]
    | exnError => simp [crawlLoop, hp, waitedFrom_append, hw, waitedFrom]
    | success resp =>
      cases hn : w.next_link resp.body with
      | some href =>
        simp [crawlLoop, hp, hn, waitedFrom_append, hw, waitedFrom,
          processItems_waited, ih]
      | none =>
        simp [crawlLoop, hp, hn, waitedFrom_append, hw, processItems_waited]

/-- In every crawl-loop trace, every discovered item is immediately
followed by a pacing delay. (The only `itemFound` events come from
`processItems`, which emits the pair directly.) -/
lemma crawlLoop_itemsPaced (w : World) (rp : Option (String → String → Bool)) :
    ∀ (fuel : Nat) (page : String) (seen : List String),
      itemsPaced (crawlLoop w rp fuel page seen).1 = true := by
  intro fuel
  induction fuel with
  | zero => intro page seen; simp [crawlLoop, itemsPaced]
  | succ f ih =>
    intro page seen
    have hshape := polite_get_shape (w.get page) rp (some w.ua) page
    rcases hp : polite_get (w.get page) rp (some w.ua) page with ⟨pevs, pres⟩
    rw [hp] at hshape
    dsimp only at hshape
    cases pres with
    | permissionError =>
      rcases hshape with rfl | rfl | ⟨n, rfl⟩ <;> simp [crawlLoop, hp, itemsPaced]
    | httpError s =>
      rcases hshape with rfl | rfl | ⟨n, rfl⟩ <;> simp [crawlLoop, hp, itemsPaced]
    | exnError =>
      rcases hshape with rfl | rfl | ⟨n, rfl⟩ <;> simp [crawlLoop, hp, itemsPaced]
    | success resp =>
      cases hn : w.next_link resp.body with
      | some href =>
        rcases hshape with rfl | rfl | ⟨n, rfl⟩ <;>
          simp [crawlLoop, hp, hn, itemsPaced, List.append_assoc,
            processItems_itemsPaced_append, ih]
      | none =>
        have hpi := processItems_itemsPaced_append w page (w.parse_listing resp.body) seen []
        simp only [List.append_nil] at hpi
        rcases hshape with rfl | rfl | ⟨n, rfl⟩ <;>
          simp [crawlLoop, hp, hn, itemsPaced, hpi]

/-- The crawl loop records each item URL at most once, and never records a
URL already in the visited set it starts from. -/
lemma crawlLoop_nodup (w : World) (rp : Option (String → String → Bool)) :
    ∀ (fuel : Nat) (page : String) (seen : List String),
      (itemUrls (crawlLoop w rp fuel page seen).1).Nodup ∧
      ∀ u ∈ itemUrls (crawlLoop w rp fuel page seen).1, u ∉ seen := by
  intro fuel
  induction fuel with
  | zero => intro page seen; simp [crawlLoop, itemUrls]
  | succ f ih =>
    intro page seen
    have hpi := polite_get_itemUrls (w.get page) rp (some w.ua) page
    rcases hp : polite_get (w.get page) rp (some w.ua) page with ⟨pevs, pres⟩
    rw [hp] at hpi
    dsimp only at hpi
    cases pres with
    | permissionError =>
      simp [crawlLoop, hp, itemUrls_append, hpi, show itemUrls [Ev.logError] = [] from rfl]
    | httpError s =>
      simp [crawlLoop, hp, itemUrls_append, hpi, show itemUrls [Ev.logError] = [] from rfl]
    | exnError =>
      simp [crawlLoop, hp, itemUrls_append, hpi, show itemUrls [Ev.logError] = [] from rfl]
    | success resp =>
      obtain ⟨pnd, pnotin, pgrow, pin⟩ :=
        processItems_nodup w page (w.parse_listing resp.body) seen
      cases hn : w.next_link resp.body with
      | some href =>
        obtain ⟨rnd, rnotin⟩ :=
          ih (w.urljoin page href) (processItems w page (w.parse_listing resp.body) seen).2
        have hur : itemUrls (crawlLoop w rp (f + 1) page seen).1 =
            itemUrls (processItems w page (w.parse_listing resp.body) seen).1 ++
              itemUrls (crawlLoop w rp f (w.urljoin page href)
                (processItems w page (w.parse_listing resp.body) seen).2).1 := by
          have hdel : ∀ l : List Ev, itemUrls (Ev.delay :: l) = itemUrls l := fun l => rfl
          simp [crawlLoop, hp, hn, itemUrls_append, hpi, hdel]
        rw [hur]
        constructor
        · exact List.nodup_append.mpr
            ⟨pnd, rnd, fun u hu hur2 => rnotin u hur2 (pin u hu)⟩
        · intro u hu
          rcases List.mem_append.mp hu with hl | hr
          · exact pnotin u hl
          · exact fun hs => rnotin u hr (pgrow u hs)
      | none =>
        have hur : itemUrls (crawlLoop w rp (f + 1) page seen).1 =
            itemUrls (processItems w page (w.parse_listing resp.body) seen).1 := by
          simp [crawlLoop, hp, hn, itemUrls_append, hpi]
        rw [hur]
        exact ⟨pnd, pnotin⟩


/-- A non-trivial crawl loop trace starts with the trace of the first
`polite_get`. -/
lemma crawlLoop_starts_with_get (w : World) (rp : Option (String → String → Bool))
    (f : Nat) (page : String) (seen : List String) :
    ∃ rest, (crawlLoop w rp (f + 1) page seen).1 =
      (polite_get (w.get page) rp (some w.ua) page).1 ++ rest := by
  rcases hp : polite_get (w.get page) rp (some w.ua) page with ⟨pevs, pres⟩
  cases pres with
  | permissionError => exact ⟨[.logError], by simp [crawlLoop, hp]⟩
  | httpError s => exact ⟨[.logError], by simp [crawlLoop, hp]⟩
  | exnError => exact ⟨[.logError], by simp [crawlLoop, hp]⟩
  | success resp =>
    cases hn : w.next_link resp.body with
    | some href =>
      exact ⟨(processItems w page (w.parse_listing resp.body) seen).1 ++ Ev.delay ::
          (crawlLoop w rp f (w.urljoin page href)
            (processItems w page (w.parse_listing resp.body) seen).2).1,
        by simp [crawlLoop, hp, hn, List.append_assoc]⟩
    | none =>
      exact ⟨(processItems w page (w.parse_listing resp.body) seen).1,
        by simp [crawlLoop, hp, hn]⟩

/-- Calling `polite_get` without a robots parser always issues its first request:
the page-request event is in the trace. -/
lemma pageGet_mem_polite_get_none (get : Nat → GetResult) (ua : Option String)
    (url : String) :
    Ev.pageGet url ∈ (polite_get get none ua url).1 := by
  have h : (polite_get get none ua url).1 = (polite_get_fetch get url).1 := by
    simp [polite_get]
  rw [h]
  rcases polite_get_fetch_shape get url with hs | ⟨n, hs⟩ <;> simp [hs]

/-- Log and robots events carry no items. -/
lemma itemUrls_robotsFetch (l : List Ev) : itemUrls (Ev.robotsFetch :: l) = itemUrls l := rfl

lemma itemUrls_logWarning (l : List Ev) : itemUrls (Ev.logWarning :: l) = itemUrls l := rfl

lemma itemUrls_logError (l : List Ev) : itemUrls (Ev.logError :: l) = itemUrls l := rfl

lemma itemUrls_nil : itemUrls [] = [] := rfl

/-- The crawl loop never produces the robots-blocked terminal: that can
only come from the pre-loop robots check. -/
lemma crawlLoop_ne_blocked (w : World) (rp : Option (String → String → Bool)) :
    ∀ (fuel : Nat) (page : String) (seen : List String),
      (crawlLoop w rp fuel page seen).2 ≠ .blocked := by
  intro fuel
  induction fuel with
  | zero => intro page seen; simp [crawlLoop]
  | succ f ih =>
    intro page seen
    rcases hp : polite_get (w.get page) rp (some w.ua) page with ⟨pevs, pres⟩
    cases pres with
    | permissionError => simp [crawlLoop, hp]
    | httpError s => simp [crawlLoop, hp]
    | exnError => simp [crawlLoop, hp]
    | success resp =>
      cases hn : w.next_link resp.body with
      | some href =>
        simpa [crawlLoop, hp, hn] using
          ih (w.urljoin page href) (processItems w page (w.parse_listing resp.body) seen).2
      | none => simp [crawlLoop, hp, hn]

/-! ## Claims about the crawl loop, the robots gate and the rate limiter -/

/-- C5: when the robots policy explicitly denies the seed URL, `scrape_site`
goes straight to the blocked terminal: the whole trace is the robots fetch
and the error log, with zero page requests. -/
theorem robots_denied_blocks_without_fetch (w : World) (rp : String → String → Bool)
    (url : String) (fuel : Nat) (hr : w.robotsRead = some rp) (hd : rp "*" url = false) :
    (scrape_site w fuel url).1 = [.robotsFetch, .logError] ∧
    countGets (scrape_site w fuel url).1 = 0 ∧
    (scrape_site w fuel url).2 = .blocked := by
  have key : scrape_site w fuel url = ([.robotsFetch, .logError], .blocked) := by
    simp [scrape_site, check_robots, hr, hd]
  refine ⟨by rw [key], ?_, by rw [key]⟩
  rw [key]
  rfl

/-- Witness for `robots_denied_blocks_without_fetch` in a concrete
deny-everything world. -/
theorem robots_denied_blocks_without_fetch_witness :
    (scrape_site wBlocked 3 "http://example.com/").1 = [.robotsFetch, .logError] ∧
    countGets (scrape_site wBlocked 3 "http://example.com/").1 = 0 ∧
    (scrape_site wBlocked 3 "http://example.com/").2 = .blocked :=
  robots_denied_blocks_without_fetch wBlocked (fun _ _ => false) "http://example.com/" 3
    rfl rfl

/-- C6 is refuted on the first page request: in a run against a permissive
world with one empty page, the only page request is issued with no pacing
delay anywhere before it, so "a pacing delay occurs before every page
request, including the first" is false. -/
theorem first_page_request_unpaced :
    (scrape_site wOpen 1 "http://example.com/").1 =
      [.robotsFetch, .pageGet "http://example.com/"] ∧
    countGets (scrape_site wOpen 1 "http://example.com/").1 = 1 ∧
    paced (scrape_site wOpen 1 "http://example.com/").1 = false :=
  ⟨by decide, by decide, by decide⟩

/-- C6 as amended: the first page request is issued without a prior pacing
delay, but every later page request is preceded by a wait (a pacing delay
or the 429 Retry-After sleep) since the previous page request, and every
newly discovered item is immediately followed by a pacing delay. -/
theorem pacing_between_page_requests :
    (∀ (w : World) (fuel : Nat) (url : String),
        waitedFrom true (scrape_site w fuel url).1 = true) ∧
    (∀ (w : World) (fuel : Nat) (url : String),
        itemsPaced (scrape_site w fuel url).1 = true) := by
  constructor
  · intro w fuel url
    cases hr : w.robotsRead with
    | none => simp [scrape_site, check_robots, hr, waitedFrom, crawlLoop_waited]
    | some rp =>
      by_cases hd : rp "*" url = false
      · simp [scrape_site, check_robots, hr, hd, waitedFrom]
      · simp [scrape_site, check_robots, hr, hd, waitedFrom, crawlLoop_waited]
  · intro w fuel url
    cases hr : w.robotsRead with
    | none => simp [scrape_site, check_robots, hr, itemsPaced, crawlLoop_itemsPaced]
    | some rp =>
      by_cases hd : rp "*" url = false
      · simp [scrape_site, check_robots, hr, hd, itemsPaced]
      · simp [scrape_site, check_robots, hr, hd, itemsPaced, crawlLoop_itemsPaced]

/-- C7: in every run, each resolved item URL is processed at most once —
the list of discovered item URLs of any `scrape_site` trace has no
duplicates, however many pages link to the same item. -/
theorem visited_set_no_reprocessing :
    ∀ (w : World) (fuel : Nat) (url : String),
      (itemUrls (scrape_site w fuel url).1).Nodup := by
  intro w fuel url
  cases hr : w.robotsRead with
  | none =>
    have h := (crawlLoop_nodup w none fuel url []).1
    simpa [scrape_site, check_robots, hr, itemUrls_robotsFetch, itemUrls_logWarning] using h
  | some rp =>
    by_cases hd : rp "*" url = false
    · simp [scrape_site, check_robots, hr, hd, itemUrls_robotsFetch, itemUrls_logError,
        itemUrls_nil]
    · have h := (crawlLoop_nodup w (some rp) fuel url []).1
      simpa [scrape_site, check_robots, hr, hd, itemUrls_robotsFetch] using h

/-- C8: every `random_delay` sample sleeps a duration within
`[MIN_DELAY, MAX_DELAY]`: never negative, never outside the bounds. -/
theorem random_delay_within_bounds (u : ℚ) (h0 : 0 ≤ u) (h1 : u ≤ 1) :
    MIN_DELAY ≤ random_delay u ∧ random_delay u ≤ MAX_DELAY := by
  simp only [random_delay, uniform, MIN_DELAY, MAX_DELAY]
  constructor <;> nlinarith

/-- Witness for `random_delay_within_bounds` at the sample `u = 1/2`. -/
theorem random_delay_within_bounds_witness :
    MIN_DELAY ≤ random_delay (1 / 2) ∧ random_delay (1 / 2) ≤ MAX_DELAY :=
  random_delay_within_bounds (1 / 2) (by norm_num) (by norm_num)

/-- C9: when robots.txt cannot be read, `check_robots` returns the unknown
result (`none` — neither allowed nor denied) after logging a warning, and
the crawl proceeds: the run is not blocked and the first page request is
issued. -/
theorem robots_unavailable_proceeds (w : World) (url : String) (f : Nat)
    (hr : w.robotsRead = none) :
    check_robots w url = ([.robotsFetch, .logWarning], none) ∧
    Ev.logWarning ∈ (scrape_site w (f + 1) url).1 ∧
    (scrape_site w (f + 1) url).2 ≠ .blocked ∧
    Ev.pageGet url ∈ (scrape_site w (f + 1) url).1 := by
  have hcr : check_robots w url = ([.robotsFetch, .logWarning], none) := by
    simp [check_robots, hr]
  have hsc : scrape_site w (f + 1) url =
      (Ev.robotsFetch :: Ev.logWarning :: (crawlLoop w none (f + 1) url []).1,
        (crawlLoop w none (f + 1) url []).2) := by
    simp [scrape_site, check_robots, hr]
  refine ⟨hcr, ?_, ?_, ?_⟩
  · rw [hsc]
    simp
  · rw [hsc]
    exact crawlLoop_ne_blocked w none (f + 1) url []
  · obtain ⟨rest, hrest⟩ := crawlLoop_starts_with_get w none f url []
    have hmem := pageGet_mem_polite_get_none (w.get url) (some w.ua) url
    rw [hsc, hrest]
    simp [hmem]

/-- Witness for `robots_unavailable_proceeds` in a concrete world whose
robots.txt read fails. -/
theorem robots_unavailable_proceeds_witness :
    check_robots wUnknown "http://example.com/" = ([.robotsFetch, .logWarning], none) ∧
    Ev.logWarning ∈ (scrape_site wUnknown 1 "http://example.com/").1 ∧
    (scrape_site wUnknown 1 "http://example.com/").2 ≠ .blocked ∧
    Ev.pageGet "http://example.com/" ∈ (scrape_site wUnknown 1 "http://example.com/").1 :=
  robots_unavailable_proceeds wUnknown "http://example.com/" 0 rfl

end WebscrapingSeguro
